import Mathlib

/-!
Shallow embedding of `bytesize.go` from demen1n/go-bytesize.

Modelling conventions:
* `ByteSize` (Go `uint64`) is modelled as `Nat`.  No arithmetic in the claims
  overflows 2^64, and the one conversion site from floating point to `uint64`
  (`ByteSize(value * float64(unit))`) is only exercised in range.
* Go `float64` values are modelled as exact non-negative rationals, kept as an
  unreduced numerator/denominator pair `Fl` (denominators are powers of ten or
  powers of 1024, always positive at every use site).  Every floating value
  arising in the theorems below (quotients of a byte count by a power of 1024,
  and decimal literals such as `1.00`) is exactly representable in `float64`
  with exact arithmetic, so the model agrees with the code there.
* Go strings are UTF-8; `for i, r := range s` iterates runes and `s[:i]`,
  `s[i:]` split at a rune boundary, so splitting the `List Char` of a Lean
  string is a faithful model.
* `unicode.IsDigit` is modelled on the ASCII range (no input in the claims
  contains a non-ASCII decimal digit), `strings.TrimSpace` on the usual
  whitespace code points, and `strings.ToUpper` on the ASCII and Cyrillic
  alphabetic ranges, which covers every spelling in the locale tables.
* The three package-global variables `CurrentLocale`, `LongUnits`, `Format`
  are modelled as an explicit `Config` record threaded through the functions
  that read them; `SetLocale` and the default initializers become functions
  of / values of `Config`.
* Go maps become functions: a lookup miss in `longUnits`/`shortUnits` returns
  the zero value "" exactly as a Go map miss does; `parseMap` returns
  `Option Nat` since the code checks the `ok` flag.
-/

namespace bytesize

/-- Byte size suffixes: `B`, `KB`, ..., `EB` from the Go const block,
powers of 1024. -/
def B : Nat := 1

/-- Kilobyte: 1 shifted left by 10 bits. -/
def KB : Nat := 1024

/-- Megabyte. -/
def MB : Nat := 1048576

/-- Gigabyte. -/
def GB : Nat := 1073741824

/-- Terabyte. -/
def TB : Nat := 1099511627776

/-- Petabyte. -/
def PB : Nat := 1125899906842624

/-- Exabyte. -/
def EB : Nat := 1152921504606846976

/-- The seven unit magnitudes of the const block, in increasing order. -/
def magnitudes : List Nat := [B, KB, MB, GB, TB, PB, EB]

/-- An exact non-negative rational `num / den`, the model of the `float64`
values flowing through the parser and formatter.  Invariant at every use
site: `den > 0`. -/
structure Fl where
  num : Nat
  den : Nat
  deriving DecidableEq, Repr

/-- Truncation of a non-negative value toward zero, the model of Go's
`int(value)` / `ByteSize(value)` conversions on the non-negative floats that
reach them. -/
def Fl.trunc (v : Fl) : Nat := v.num / v.den

/-- Multiplication by a natural number (`value * float64(unit)` where `unit`
is a power of two: exact in `float64` for all values in the claims). -/
def Fl.mulNat (v : Fl) (n : Nat) : Fl := ⟨v.num * n, v.den⟩

/-- The comparison `value > 0` of the source, exact on `Fl` when `den > 0`. -/
def Fl.pos (v : Fl) : Prop := 0 < v.num

/-- The comparison `value == 1` of the source, exact on `Fl` when `den > 0`. -/
def Fl.isOne (v : Fl) : Prop := v.num = v.den

/-- Semantics of an `Fl` as a rational number (used only in statements). -/
def Fl.toRat (v : Fl) : ℚ := (v.num : ℚ) / (v.den : ℚ)

instance (v : Fl) : Decidable v.pos := Nat.decLt _ _

instance (v : Fl) : Decidable v.isOne := Nat.decEq _ _

/-- Model of `unicode.IsDigit` on the ASCII range. -/
def isGoDigit (c : Char) : Prop := '0' ≤ c ∧ c ≤ '9'

instance (c : Char) : Decidable (isGoDigit c) := instDecidableAnd

/-- Model of the whitespace set trimmed by `strings.TrimSpace`. -/
def isGoSpace (c : Char) : Prop :=
  c = ' ' ∨ c = '\t' ∨ c = '\n' ∨ c = '\x0b' ∨ c = '\x0c' ∨ c = '\r' ∨
    c = '\x85' ∨ c = '\xa0'

instance (c : Char) : Decidable (isGoSpace c) := by
  unfold isGoSpace; infer_instance

/-- Model of `strings.TrimSpace` on a rune list. -/
def goTrim (cs : List Char) : List Char :=
  ((cs.dropWhile (fun c => decide (isGoSpace c))).reverse.dropWhile
    (fun c => decide (isGoSpace c))).reverse

/-- Model of `strings.ToUpper` on one rune, for the ASCII letters and the
Cyrillic letters appearing in the locale tables (both ranges map lowercase
to uppercase by subtracting 0x20; `ё` maps to `Ё` separately). -/
def goUpperChar (c : Char) : Char :=
  if 'a' ≤ c ∧ c ≤ 'z' then Char.ofNat (c.toNat - 32)
  else if 'а' ≤ c ∧ c ≤ 'я' then Char.ofNat (c.toNat - 32)
  else if c = 'ё' then 'Ё'
  else c

/-- Model of `strings.ToUpper` on a string. -/
def goUpper (s : String) : String := String.mk (s.data.map goUpperChar)

/-- Per-locale unit definitions: the Go struct `unitDefinitions`.  The Go
maps `longUnits`/`shortUnits` become total functions returning the zero value
"" on a miss, exactly as a Go map lookup without the `ok` flag does;
`parseMap` keeps its miss observable because the code checks `ok`. -/
structure unitDefinitions where
  longUnits : Nat → String
  shortUnits : Nat → String
  parseMap : String → Option Nat

/-- The `longUnits` map of the `LocaleEN` table literal. -/
def enLongUnits : Nat → String
  | 1 => "byte"
  | 1024 => "kilobyte"
  | 1048576 => "megabyte"
  | 1073741824 => "gigabyte"
  | 1099511627776 => "terabyte"
  | 1125899906842624 => "petabyte"
  | 1152921504606846976 => "exabyte"
  | _ => ""

/-- The `shortUnits` map of the `LocaleEN` table literal. -/
def enShortUnits : Nat → String
  | 1 => "B"
  | 1024 => "KB"
  | 1048576 => "MB"
  | 1073741824 => "GB"
  | 1099511627776 => "TB"
  | 1125899906842624 => "PB"
  | 1152921504606846976 => "EB"
  | _ => ""

/-- The `parseMap` of the `LocaleEN` table literal. -/
def enParseMap : String → Option Nat
  | "B" => some B | "BYTE" => some B | "BYTES" => some B
  | "KB" => some KB | "KILOBYTE" => some KB | "KILOBYTES" => some KB
  | "MB" => some MB | "MEGABYTE" => some MB | "MEGABYTES" => some MB
  | "GB" => some GB | "GIGABYTE" => some GB | "GIGABYTES" => some GB
  | "TB" => some TB | "TERABYTE" => some TB | "TERABYTES" => some TB
  | "PB" => some PB | "PETABYTE" => some PB | "PETABYTES" => some PB
  | "EB" => some EB | "EXABYTE" => some EB | "EXABYTES" => some EB
  | _ => none

/-- The `longUnits` map of the `LocaleRU` table literal. -/
def ruLongUnits : Nat → String
  | 1 => "байт"
  | 1024 => "килобайт"
  | 1048576 => "мегабайт"
  | 1073741824 => "гигабайт"
  | 1099511627776 => "терабайт"
  | 1125899906842624 => "петабайт"
  | 1152921504606846976 => "эксабайт"
  | _ => ""

/-- The `shortUnits` map of the `LocaleRU` table literal. -/
def ruShortUnits : Nat → String
  | 1 => "Б"
  | 1024 => "КБ"
  | 1048576 => "МБ"
  | 1073741824 => "ГБ"
  | 1099511627776 => "ТБ"
  | 1125899906842624 => "ПБ"
  | 1152921504606846976 => "ЭБ"
  | _ => ""

/-- The `parseMap` of the `LocaleRU` table literal, before the `init`
function runs. -/
def ruParseMapBase : String → Option Nat
  | "Б" => some B | "БАЙТ" => some B | "БАЙТЫ" => some B | "БАЙТОВ" => some B
  | "КБ" => some KB | "КИЛОБАЙТ" => some KB | "КИЛОБАЙТЫ" => some KB
  | "КИЛОБАЙТОВ" => some KB
  | "МБ" => some MB | "МЕГАБАЙТ" => some MB | "МЕГАБАЙТЫ" => some MB
  | "МЕГАБАЙТОВ" => some MB
  | "ГБ" => some GB | "ГИГАБАЙТ" => some GB | "ГИГАБАЙТЫ" => some GB
  | "ГИГАБАЙТОВ" => some GB
  | "ТБ" => some TB | "ТЕРАБАЙТ" => some TB | "ТЕРАБАЙТЫ" => some TB
  | "ТЕРАБАЙТОВ" => some TB
  | "ПБ" => some PB | "ПЕТАБАЙТ" => some PB | "ПЕТАБАЙТЫ" => some PB
  | "ПЕТАБАЙТОВ" => some PB
  | "ЭБ" => some EB | "ЭКСАБАЙТ" => some EB | "ЭКСАБАЙТЫ" => some EB
  | "ЭКСАБАЙТОВ" => some EB
  | _ => none

/-- The `parseMap` of the `LocaleRU` table after the `init` function: for
every key of the EN parse map absent from the RU parse map, the EN entry is
added.  As a lookup function this is exactly: RU first, then EN. -/
def ruParseMap (s : String) : Option Nat :=
  match ruParseMapBase s with
  | some v => some v
  | none => enParseMap s

/-- The `LocaleEN` entry of `localizedUnits`. -/
def enUnits : unitDefinitions := ⟨enLongUnits, enShortUnits, enParseMap⟩

/-- The `LocaleRU` entry of `localizedUnits`, in its post-`init` state (the
state every exported operation observes). -/
def ruUnits : unitDefinitions := ⟨ruLongUnits, ruShortUnits, ruParseMap⟩

/-- The `localizedUnits` map (locales are the strings "en" and "ru", the
values of the `Locale` constants). -/
def localizedUnits : String → Option unitDefinitions
  | "en" => some enUnits
  | "ru" => some ruUnits
  | _ => none

/-- The three package-global configuration variables, threaded explicitly. -/
structure Config where
  currentLocale : String
  longUnitsFlag : Bool
  format : String
  deriving DecidableEq, Repr

/-- The initializers of the globals: `CurrentLocale = LocaleEN`,
`LongUnits = false`, `Format = "%.2f"`. -/
def defaultConfig : Config := ⟨"en", false, "%.2f"⟩

/-- Model of `SetLocale`: update `CurrentLocale` only when the locale exists
in `localizedUnits`. -/
def SetLocale (cfg : Config) (locale : String) : Config :=
  match localizedUnits locale with
  | some _ => { cfg with currentLocale := locale }
  | none => cfg

/-- The classified error returns of `parseWithLocale`, one constructor per
`return 0, err` site: the unsupported-locale error, the
"unrecognized size suffix" error from the failed split (the spec's
`ErrMalformedInput`), the "unrecognized size suffix: <unit>" error from the
parse-map miss (the spec's `ErrUnknownUnit`), and the `strconv.ParseFloat`
error (the spec's `ErrInvalidNumber`, carrying the offending numeric
substring). -/
inductive ParseError where
  | unsupportedLocale (locale : String)
  | malformedInput
  | unknownUnit (unit : String)
  | invalidNumber (numStr : String)
  deriving DecidableEq, Repr

/-- The split loop of `parseWithLocale`: scan runes left to right carrying
the scanned prefix; at the first rune that is neither a digit nor '.', stop
and return both halves trimmed (`strings.TrimSpace(s[:i])`,
`strings.TrimSpace(s[i:])`); if the scan exhausts the string, the loop ends
with no split. -/
def splitNumUnit (pre : List Char) : List Char → Option (List Char × List Char)
  | [] => none
  | c :: rest =>
    if ¬ isGoDigit c ∧ c ≠ '.' then
      some (goTrim pre.reverse, goTrim (c :: rest))
    else
      splitNumUnit (c :: pre) rest

/-- Digit-string value, most significant digit first (the integer semantics
of a decimal digit run). -/
def digitsToNat (cs : List Char) : Nat :=
  cs.foldl (fun a c => 10 * a + (c.toNat - 48)) 0

/-- Model of `strconv.ParseFloat` restricted to its reachable domain here:
the numeric half of the split consists only of digits and dots (any other
rune would have ended the scan and gone to the unit half).  On such strings
`ParseFloat` succeeds exactly when there is at least one digit and at most
one dot, and the value is the exact decimal (every value the claims evaluate
is exactly representable in `float64`).  Out-of-range decimals (hundreds of
digits) that would make `ParseFloat` report a range error do not occur in
the claims. -/
def goParseFloat (cs : List Char) : Option Fl :=
  if cs.any (fun c => decide (isGoDigit c)) ∧
      cs.all (fun c => decide (isGoDigit c ∨ c = '.')) ∧
      (cs.filter (fun c => decide (c = '.'))).length ≤ 1 then
    let ip := cs.takeWhile (fun c => decide (c ≠ '.'))
    let fp := (cs.dropWhile (fun c => decide (c ≠ '.'))).drop 1
    some ⟨digitsToNat (ip ++ fp), 10 ^ fp.length⟩
  else
    none

/-- Model of `parseWithLocale`: resolve the locale table, trim the input,
split it into numeric and unit halves, resolve the uppercased unit half in
the parse map, parse the numeric half as a float, and truncate
`value * float64(unit)` to the byte count. -/
def parseWithLocale (s : String) (locale : String) : Except ParseError Nat :=
  match localizedUnits locale with
  | none => .error (.unsupportedLocale locale)
  | some units =>
    let cs := goTrim s.data
    match splitNumUnit [] cs with
    | none => .error .malformedInput
    | some (numPart, unitPart) =>
      match units.parseMap (goUpper (String.mk unitPart)) with
      | none => .error (.unknownUnit (String.mk unitPart))
      | some unit =>
        match goParseFloat numPart with
        | none => .error (.invalidNumber (String.mk numPart))
        | some value => .ok ((value.mulNat unit).trunc)

/-- Model of `Parse`: parse under the active global locale. -/
def Parse (cfg : Config) (s : String) : Except ParseError Nat :=
  parseWithLocale s cfg.currentLocale

/-- Model of the flag-style setter `(*ByteSize).Set`: on a parse error the
error is returned and the receiver keeps its old value; on success the
receiver becomes the parsed count.  The returned pair is (new receiver
value, error). -/
def Set (cfg : Config) (b : Nat) (s : String) : Nat × Option ParseError :=
  match Parse cfg s with
  | .ok bs => (bs, none)
  | .error e => (b, some e)

/-- Model of `(*ByteSize).UnmarshalText`: `b.Set(string(text))`. -/
def UnmarshalText (cfg : Config) (b : Nat) (text : String) :
    Nat × Option ParseError :=
  Set cfg b text

/-- The Russian plural-form tables of `getRussianPlural`: the `forms` slice
(one, few, many) chosen by the `switch unit`.  A unit outside the seven
magnitudes leaves the Go slice nil; indexing it would panic, which is
unreachable because every caller passes a magnitude from the tables or the
size switch — modelled by the empty list. -/
def russianForms : Nat → List String
  | 1 => ["байт", "байта", "байтов"]
  | 1024 => ["килобайт", "килобайта", "килобайтов"]
  | 1048576 => ["мегабайт", "мегабайта", "мегабайтов"]
  | 1073741824 => ["гигабайт", "гигабайта", "гигабайтов"]
  | 1099511627776 => ["терабайт", "терабайта", "терабайтов"]
  | 1125899906842624 => ["петабайт", "петабайта", "петабайтов"]
  | 1152921504606846976 => ["эксабайт", "эксабайта", "эксабайтов"]
  | _ => []

/-- Model of `getRussianPlural`: truncate the value to an integer
(`intValue := int(value)`; all values reaching it are non-negative), then
pick the form by `intValue % 100` being in 11..19, else by
`intValue % 10`. -/
def getRussianPlural (value : Fl) (unit : Nat) : String :=
  let intValue := value.trunc
  let forms := russianForms unit
  if 11 ≤ intValue % 100 ∧ intValue % 100 ≤ 19 then
    (forms.getD 2 "")
  else
    match intValue % 10 with
    | 1 => (forms.getD 0 "")
    | 2 => (forms.getD 1 "")
    | 3 => (forms.getD 1 "")
    | 4 => (forms.getD 1 "")
    | _ => (forms.getD 2 "")

/-- The magnitude-selection switch of `formatWithUnits` for an empty unit
override: the first case `b >= EB`, ..., `b >= KB` that holds, else `B`. -/
def selectUnitSize (b : Nat) : Nat :=
  if b ≥ EB then EB
  else if b ≥ PB then PB
  else if b ≥ TB then TB
  else if b ≥ GB then GB
  else if b ≥ MB then MB
  else if b ≥ KB then KB
  else B

/-- Round-half-to-even of the exact quotient `num / den` to an integer, the
rounding `fmt` applies when printing a `float64` with a fixed number of
decimals (exact here because every formatted value in the claims is an
exactly representable decimal). -/
def roundHalfEven (num den : Nat) : Nat :=
  let q := num / den
  let r := num % den
  if 2 * r < den then q
  else if den < 2 * r then q + 1
  else if q % 2 = 0 then q else q + 1

/-- Left-pad the decimal digits of `n` with zeros to `width` characters. -/
def padZeros (width : Nat) (n : Nat) : String :=
  String.mk (List.replicate (width - (Nat.repr n).length) '0') ++ Nat.repr n

/-- Fixed-point rendering of a non-negative value with `prec` digits after
the decimal point: the `%.<prec>f` verb of `fmt.Sprintf`. -/
def Fl.fmtFixed (prec : Nat) (v : Fl) : String :=
  let n := roundHalfEven (v.num * 10 ^ prec) v.den
  if prec = 0 then Nat.repr n
  else Nat.repr (n / 10 ^ prec) ++ "." ++ padZeros prec (n % 10 ^ prec)

/-- Recogniser for the `%.<digits>f` / `%f` fixed-point verbs, giving the
precision (`%f` defaults to 6). -/
def fixedFmtPrec : List Char → Option Nat
  | '%' :: 'f' :: [] => some 6
  | '%' :: '.' :: rest =>
    let ds := rest.takeWhile (fun c => decide (isGoDigit c))
    if ds ≠ [] ∧ rest.drop ds.length = ['f'] then some (digitsToNat ds)
    else none
  | _ => none

/-- Model of `fmt.Sprintf(format, value)` for the floating-point value: the
claims only exercise fixed-point verbs (`%.2f` by default); a format string
that is not such a verb is outside the modelled domain and is returned
unchanged. -/
def sprintfFloat (format : String) (v : Fl) : String :=
  match fixedFmtPrec format.data with
  | some prec => Fl.fmtFixed prec v
  | none => format

/-- Tail of `formatWithUnits` once `unitSize` is fixed: compute the display
value `float64(b) / float64(unitSize)` (exact: `unitSize` is a power of two)
and render.  In long form the label starts as `units.longUnits[unitSize]`
and is replaced by the Russian plural when the global `CurrentLocale` is
"ru", or gets the "s" suffix when the global `CurrentLocale` is "en" and the
value is positive and not 1; the value and label are joined by one space.
In short form the short symbol is appended with no space. -/
def formatValue (cfg : Config) (b : Nat) (format : String) (longUnits : Bool)
    (units : unitDefinitions) (unitSize : Nat) : String :=
  let value : Fl := ⟨b, unitSize⟩
  if longUnits then
    let unitStr := units.longUnits unitSize
    let unitStr :=
      if cfg.currentLocale = "ru" then getRussianPlural value unitSize
      else if cfg.currentLocale = "en" then
        if value.pos ∧ ¬ value.isOne then unitStr ++ "s" else unitStr
      else unitStr
    sprintfFloat format value ++ " " ++ unitStr
  else
    sprintfFloat format value ++ units.shortUnits unitSize

/-- Model of `formatWithUnits`: a non-empty unit override is uppercased and
resolved through the parse map, returning the literal diagnostic string on a
miss; an empty override selects the magnitude by the size switch. -/
def formatWithUnits (cfg : Config) (b : Nat) (format : String) (unit : String)
    (longUnits : Bool) (units : unitDefinitions) : String :=
  if unit ≠ "" then
    match units.parseMap (goUpper unit) with
    | none => "Unrecognized unit: " ++ unit
    | some unitSize => formatValue cfg b format longUnits units unitSize
  else
    formatValue cfg b format longUnits units (selectUnitSize b)

/-- Model of `formatWithLocale`: resolve the locale table, silently falling
back to the `LocaleEN` table when the locale is not in `localizedUnits`,
then format. -/
def formatWithLocale (cfg : Config) (b : Nat) (format : String)
    (unit : String) (longUnits : Bool) (locale : String) : String :=
  match localizedUnits locale with
  | some units => formatWithUnits cfg b format unit longUnits units
  | none => formatWithUnits cfg b format unit longUnits enUnits

/-- Model of the `Format` method: format under the active global locale. -/
def FormatMethod (cfg : Config) (b : Nat) (format : String) (unit : String)
    (longUnits : Bool) : String :=
  formatWithLocale cfg b format unit longUnits cfg.currentLocale

/-- Model of `stringWithLocale`: format with the global `Format` string, no
unit override, and the global `LongUnits` flag. -/
def stringWithLocale (cfg : Config) (b : Nat) (locale : String) : String :=
  formatWithLocale cfg b cfg.format "" cfg.longUnitsFlag locale

/-- Model of the `String` method: `stringWithLocale` at the active global
locale. -/
def StringMethod (cfg : Config) (b : Nat) : String :=
  stringWithLocale cfg b cfg.currentLocale

/-- Formalisation of the spec's three-way grammatical-number rule, written
from the spec's words for comparison with `getRussianPlural`: truncate to an
integer `n`; if `n mod 100` falls in [11,19] use the "many" form (index 2);
else by `n mod 10`: 1 gives the "one" form (index 0); 2, 3, 4 give the "few"
form (index 1); anything else gives the "many" form (index 2). -/
def specRussianCategory (n : Nat) : Nat :=
  if 11 ≤ n % 100 ∧ n % 100 ≤ 19 then 2
  else if n % 10 = 1 then 0
  else if n % 10 = 2 ∨ n % 10 = 3 ∨ n % 10 = 4 then 1
  else 2

theorem getRussianPlural_eq_spec (v : Fl) (u : Nat) :
    getRussianPlural v u =
      (russianForms u).getD (specRussianCategory v.trunc) "" := by
  unfold getRussianPlural specRussianCategory
  by_cases h : 11 ≤ v.trunc % 100 ∧ v.trunc % 100 ≤ 19
  · simp [h]
  · simp only [h, if_false]
    have h10 : v.trunc % 10 < 10 := Nat.mod_lt _ (by omega)
    generalize v.trunc % 10 = m at *
    interval_cases m <;> simp

theorem localizedUnits_eq_none {l : String} (h1 : l ≠ "en") (h2 : l ≠ "ru") :
    localizedUnits l = none := by
  unfold localizedUnits
  split <;> simp_all

theorem enParseMap_sub_ruParseMap :
    ∀ s v, enParseMap s = some v → ruParseMap s = some v := by
  intro s v h
  unfold enParseMap at h
  split at h <;> first | (injection h with h; subst h; rfl) | cases h

theorem splitNumUnit_none_iff (pre cs : List Char) :
    splitNumUnit pre cs = none ↔ ∀ c ∈ cs, isGoDigit c ∨ c = '.' := by
  induction cs generalizing pre with
  | nil => simp [splitNumUnit]
  | cons c rest ih =>
    by_cases h : ¬ isGoDigit c ∧ c ≠ '.'
    · simp only [splitNumUnit, if_pos h]
      constructor
      · intro heq; cases heq
      · intro hall
        rcases hall c (List.mem_cons_self c rest) with hd | hdot
        · exact absurd hd h.1
        · exact absurd hdot h.2
    · simp only [splitNumUnit, if_neg h]
      rw [ih]
      push_neg at h
      constructor
      · intro hall c2 hc2
        rcases List.mem_cons.mp hc2 with rfl | hm
        · by_cases hd : isGoDigit c2
          · exact Or.inl hd
          · exact Or.inr (h hd)
        · exact hall c2 hm
      · intro hall c2 hc2
        exact hall c2 (List.mem_cons_of_mem _ hc2)

theorem selectUnitSize_mem (b : Nat) : selectUnitSize b ∈ magnitudes := by
  simp only [selectUnitSize, magnitudes, B, KB, MB, GB, TB, PB, EB]
  split_ifs <;> simp

theorem selectUnitSize_small (b : Nat) (h : b < KB) : selectUnitSize b = B := by
  simp only [selectUnitSize, B, KB, MB, GB, TB, PB, EB] at *
  split_ifs <;> omega

theorem selectUnitSize_le (b : Nat) (h : KB ≤ b) : selectUnitSize b ≤ b := by
  simp only [selectUnitSize, B, KB, MB, GB, TB, PB, EB] at *
  split_ifs <;> omega

theorem selectUnitSize_max (b : Nat) :
    ∀ m ∈ magnitudes, m ≤ b → m ≤ selectUnitSize b := by
  intro m hm hmb
  simp only [magnitudes, B, KB, MB, GB, TB, PB, EB, List.mem_cons,
    List.not_mem_nil, or_false] at hm
  simp only [selectUnitSize, B, KB, MB, GB, TB, PB, EB] at *
  rcases hm with rfl | rfl | rfl | rfl | rfl | rfl | rfl <;> split_ifs <;> omega

end bytesize

open bytesize in
/-- C3.  After the registry cross-population the fallback is exactly
one-directional: every spelling of the primary (en) parse table is accepted
by the secondary (ru) parse table with the same magnitude, so
`parseWithLocale "1 MB" ru` succeeds with 1048576, while secondary-only
spellings stay absent from the primary table, so `parseWithLocale "1 КБ" en`
fails with the unknown-unit error carrying "КБ". -/
theorem C3_one_directional_fallback :
    (∀ s v, enParseMap s = some v → ruParseMap s = some v) ∧
    parseWithLocale "1 MB" "ru" = .ok 1048576 ∧
    parseWithLocale "1 КБ" "en" = .error (ParseError.unknownUnit "КБ") :=
  ⟨enParseMap_sub_ruParseMap, rfl, rfl⟩

open bytesize in
/-- Witness for C3: the primary spelling "MB" resolves to the megabyte
magnitude in the secondary table. -/
theorem C3_one_directional_fallback_witness :
    ruParseMap "MB" = some 1048576 :=
  C3_one_directional_fallback.1 "MB" 1048576 (by rfl)

open bytesize in
/-- C1.  The secondary-locale long-form pluralization truncates the display
value to an integer and selects the word form by the spec's mod-100 /
mod-10 rule, for every non-negative display value (all `Fl` values are
non-negative) and every one of the seven magnitudes; in particular the
kilobyte table: 1 gives the "one" form, 2..4 the "few" form, 5..19 the
"many" form, 21 the "one" form, 22 the "few" form, 25 and 0 the "many"
form. -/
theorem C1_russian_plural_rule :
    (∀ (v : Fl) (u : Nat), u ∈ magnitudes →
      getRussianPlural v u =
        (russianForms u).getD (specRussianCategory v.trunc) "") ∧
    (getRussianPlural ⟨1, 1⟩ KB = "килобайт" ∧
      (∀ k, 2 ≤ k → k ≤ 4 → getRussianPlural ⟨k, 1⟩ KB = "килобайта") ∧
      (∀ k, 5 ≤ k → k ≤ 19 → getRussianPlural ⟨k, 1⟩ KB = "килобайтов") ∧
      getRussianPlural ⟨21, 1⟩ KB = "килобайт" ∧
      getRussianPlural ⟨22, 1⟩ KB = "килобайта" ∧
      getRussianPlural ⟨25, 1⟩ KB = "килобайтов" ∧
      getRussianPlural ⟨0, 1⟩ KB = "килобайтов") := by
  refine ⟨fun v u _ => getRussianPlural_eq_spec v u, rfl, ?_, ?_, rfl, rfl, rfl, rfl⟩
  · intro k h2 h4
    interval_cases k <;> rfl
  · intro k h5 h19
    interval_cases k <;> rfl

open bytesize in
/-- Witness for C1: the rule evaluated at the concrete display value 7/2
(= 3.5, truncating to 3) and the few-form instance at 3 kilobytes. -/
theorem C1_russian_plural_rule_witness :
    getRussianPlural ⟨7, 2⟩ KB =
      (russianForms KB).getD (specRussianCategory (Fl.trunc ⟨7, 2⟩)) "" ∧
    getRussianPlural ⟨3, 1⟩ KB = "килобайта" :=
  ⟨C1_russian_plural_rule.1 ⟨7, 2⟩ KB (by decide),
    C1_russian_plural_rule.2.2.1 3 (by decide) (by decide)⟩

open bytesize in
/-- C4 counterexample.  The pure-unit input "MB" does NOT fail with the
malformed-input error: the scan finds a boundary at the first character, the
split succeeds with an empty numeric half and the unit half "MB", the unit
resolves, and `strconv.ParseFloat("")` then fails, so the returned error is
the invalid-number one. -/
theorem C4_pure_unit_counterexample :
    parseWithLocale "MB" "en" = .error (ParseError.invalidNumber "") ∧
    ParseError.invalidNumber "" ≠ ParseError.malformedInput :=
  ⟨rfl, by decide⟩

open bytesize in
/-- C4 amended.  Under a supported locale, parsing fails with the
malformed-input error exactly when the scan finds no boundary character,
i.e. when every character of the trimmed input is a decimal digit or '.'
(which covers empty input and pure-number input); pure-unit input instead
passes the split with an empty numeric half and fails later with the
unknown-unit or invalid-number error. -/
theorem C4_malformed_iff_no_boundary :
    ∀ (s locale : String) (units : unitDefinitions),
      localizedUnits locale = some units →
      (parseWithLocale s locale = .error ParseError.malformedInput ↔
        ∀ c ∈ goTrim s.data, isGoDigit c ∨ c = '.') := by
  intro s locale units hloc
  unfold parseWithLocale
  rw [hloc, ← splitNumUnit_none_iff []]
  cases hs : splitNumUnit [] (goTrim s.data) with
  | none => simp [hs]
  | some p =>
    obtain ⟨numPart, unitPart⟩ := p
    simp only [hs, reduceCtorEq, iff_false]
    cases hpm : unitDefinitions.parseMap units (goUpper (String.mk unitPart)) with
    | none => simp [hpm]
    | some u =>
      cases hpf : goParseFloat numPart with
      | none => simp [hpm, hpf]
      | some v => simp [hpm, hpf]

open bytesize in
/-- Witness for C4 amended: the pure-number input "1024" has no boundary
character and fails with the malformed-input error. -/
theorem C4_malformed_iff_no_boundary_witness :
    parseWithLocale "1024" "en" = .error ParseError.malformedInput ↔
      ∀ c ∈ goTrim "1024".data, isGoDigit c ∨ c = '.' :=
  C4_malformed_iff_no_boundary "1024" "en" enUnits (by rfl)

open bytesize in
/-- C6.  Formatting is total (every branch returns a `String`, never an
error value): a non-empty unit override that does not resolve in the
resolved table's parse map after uppercasing makes the format call return
the literal diagnostic string `"Unrecognized unit: " ++ unit`, and an
unsupported locale makes `formatWithLocale` fall back silently to the
primary (`LocaleEN`) table. -/
theorem C6_format_never_errors :
    ∀ (cfg : Config) (b : Nat) (format unit : String) (lu : Bool)
      (units : unitDefinitions) (locale : String),
      (unit ≠ "" → units.parseMap (goUpper unit) = none →
        formatWithUnits cfg b format unit lu units =
          "Unrecognized unit: " ++ unit) ∧
      (localizedUnits locale = none →
        formatWithLocale cfg b format unit lu locale =
          formatWithUnits cfg b format unit lu enUnits) := by
  intro cfg b format unit lu units locale
  constructor
  · intro hne hmiss
    unfold formatWithUnits
    simp [hne, hmiss]
  · intro hloc
    unfold formatWithLocale
    simp [hloc]

open bytesize in
/-- Witness for C6: the override "XB" does not resolve in the EN table and
produces the diagnostic string, and the unsupported locale "de" falls back
to the EN table. -/
theorem C6_format_never_errors_witness :
    (bytesize.formatWithUnits defaultConfig 5 "%.2f" "XB" false enUnits =
      "Unrecognized unit: XB") ∧
    (formatWithLocale defaultConfig 5 "%.2f" "XB" false "de" =
      formatWithUnits defaultConfig 5 "%.2f" "XB" false enUnits) :=
  ⟨(C6_format_never_errors defaultConfig 5 "%.2f" "XB" false enUnits "de").1
      (by decide) (by rfl),
    (C6_format_never_errors defaultConfig 5 "%.2f" "XB" false enUnits "de").2
      (by rfl)⟩

open bytesize in
/-- C9.  `SetLocale` updates the active locale exactly for the supported
locales "en" and "ru", is a silent no-op for every other locale value, and
never touches the long-units flag or the format string. -/
theorem C9_set_locale :
    ∀ (cfg : Config) (l : String),
      ((l = "en" ∨ l = "ru") →
        SetLocale cfg l = ⟨l, cfg.longUnitsFlag, cfg.format⟩) ∧
      (¬ (l = "en" ∨ l = "ru") → SetLocale cfg l = cfg) ∧
      (SetLocale cfg l).longUnitsFlag = cfg.longUnitsFlag ∧
      (SetLocale cfg l).format = cfg.format := by
  intro cfg l
  have hcase : ∀ P : Prop, ((l = "en" ∨ l = "ru") → P) → (¬ (l = "en" ∨ l = "ru") → P) → P := by
    intro P h1 h2
    by_cases h : l = "en" ∨ l = "ru"
    · exact h1 h
    · exact h2 h
  refine ⟨?_, ?_, ?_, ?_⟩
  · rintro (rfl | rfl) <;> rfl
  · intro h
    push_neg at h
    unfold SetLocale
    rw [localizedUnits_eq_none h.1 h.2]
  all_goals
    refine hcase _ ?_ ?_
    · rintro (rfl | rfl) <;> rfl
    · intro h
      push_neg at h
      unfold SetLocale
      rw [localizedUnits_eq_none h.1 h.2]

open bytesize in
/-- Witness for C9: setting "ru" from the defaults updates the locale and
nothing else; setting the unknown "de" is a no-op. -/
theorem C9_set_locale_witness :
    SetLocale defaultConfig "ru" = ⟨"ru", false, "%.2f"⟩ ∧
    SetLocale defaultConfig "de" = defaultConfig :=
  ⟨(C9_set_locale defaultConfig "ru").1 (Or.inr rfl),
    (C9_set_locale defaultConfig "de").2.1 (by decide)⟩

open bytesize in
/-- C10.  The setter entry points are atomic on error: when `Parse` fails,
`Set` (and `UnmarshalText`, which routes through `Set`) returns the same
error and the receiver keeps its previous value; when `Parse` succeeds the
receiver becomes exactly the parsed count. -/
theorem C10_set_atomic :
    ∀ (cfg : Config) (b : Nat) (s : String),
      (∀ e, Parse cfg s = .error e →
        bytesize.Set cfg b s = (b, some e) ∧ UnmarshalText cfg b s = (b, some e)) ∧
      (∀ v, Parse cfg s = .ok v →
        bytesize.Set cfg b s = (v, none) ∧ UnmarshalText cfg b s = (v, none)) := by
  intro cfg b s
  unfold UnmarshalText bytesize.Set
  cases h : Parse cfg s <;> simp_all

open bytesize in
/-- Witness for C10: the unparseable string "x" leaves the receiver 7
untouched and surfaces the unknown-unit error; "1 KB" sets it to 1024. -/
theorem C10_set_atomic_witness :
    (bytesize.Set defaultConfig 7 "x" = (7, some (ParseError.unknownUnit "x")) ∧
      UnmarshalText defaultConfig 7 "x" =
        (7, some (ParseError.unknownUnit "x"))) ∧
    (bytesize.Set defaultConfig 7 "1 KB" = (1024, none) ∧
      UnmarshalText defaultConfig 7 "1 KB" = (1024, none)) :=
  ⟨(C10_set_atomic defaultConfig 7 "x").1 (ParseError.unknownUnit "x") (by rfl),
    (C10_set_atomic defaultConfig 7 "1 KB").2 1024 (by rfl)⟩

open bytesize in
/-- C5.  With no unit override the formatter renders at the magnitude chosen
by the size switch, which is the largest of the seven powers of 1024 that is
at most the byte count (byte when the count is below 1024), and the display
value is the exact quotient of the count by that magnitude. -/
theorem C5_magnitude_selection :
    ∀ (b : Nat),
      selectUnitSize b ∈ magnitudes ∧
      (b < KB → selectUnitSize b = B) ∧
      (KB ≤ b → selectUnitSize b ≤ b) ∧
      (∀ m ∈ magnitudes, m ≤ b → m ≤ selectUnitSize b) ∧
      (∀ (cfg : Config) (format : String) (lu : Bool)
        (units : unitDefinitions),
        formatWithUnits cfg b format "" lu units =
          formatValue cfg b format lu units (selectUnitSize b)) ∧
      Fl.toRat ⟨b, selectUnitSize b⟩ = (b : ℚ) / (selectUnitSize b : ℚ) :=
  fun b =>
    ⟨selectUnitSize_mem b, selectUnitSize_small b, selectUnitSize_le b,
      selectUnitSize_max b, fun _ _ _ _ => rfl, rfl⟩

open bytesize in
/-- Witness for C5: 5000000 bytes select the megabyte magnitude (the largest
not exceeding the count), 500 bytes select byte, and the no-override format
call renders at the selected magnitude. -/
theorem C5_magnitude_selection_witness :
    selectUnitSize 5000000 ∈ magnitudes ∧
    selectUnitSize 500 = B ∧
    selectUnitSize 5000000 ≤ 5000000 ∧
    MB ≤ selectUnitSize 5000000 ∧
    formatWithUnits defaultConfig 5000000 "%.2f" "" false enUnits =
      formatValue defaultConfig 5000000 "%.2f" false enUnits
        (selectUnitSize 5000000) :=
  ⟨(C5_magnitude_selection 5000000).1,
    (C5_magnitude_selection 500).2.1 (by decide),
    (C5_magnitude_selection 5000000).2.2.1 (by decide),
    (C5_magnitude_selection 5000000).2.2.2.1 MB (by decide) (by decide),
    (C5_magnitude_selection 5000000).2.2.2.2.1 defaultConfig "%.2f" false
      enUnits⟩

open bytesize in
/-- C7 counterexample.  The claim says a display value of zero is rendered
plural, but the code appends "s" only when `value > 0 && value != 1`: at
byte count 0 the primary-locale long form is the singular "0.00 byte", not
"0.00 bytes". -/
theorem C7_zero_singular_counterexample :
    formatWithLocale ⟨"en", true, "%.2f"⟩ 0 "%.2f" "" true "en" =
      "0.00 byte" ∧
    "0.00 byte" ≠ "0.00 bytes" :=
  ⟨rfl, by decide⟩

open bytesize in
/-- C7 amended.  In primary-locale (English) long-form rendering the label
is the bare long name exactly when the display value is 1 (byte count equal
to the selected magnitude) or 0, and the long name with a literal "s"
appended for every other positive display value, with a single space
between the numeric value and the label. -/
theorem C7_english_plural_rule :
    ∀ (cfg : Config) (b : Nat) (format : String),
      cfg.currentLocale = "en" →
      formatWithUnits cfg b format "" true enUnits =
        sprintfFloat format ⟨b, selectUnitSize b⟩ ++ " " ++
          (if 0 < b ∧ b ≠ selectUnitSize b then
            enLongUnits (selectUnitSize b) ++ "s"
          else enLongUnits (selectUnitSize b)) := by
  intro cfg b format hloc
  unfold formatWithUnits formatValue
  simp [hloc, Fl.pos, Fl.isOne, enUnits]

open bytesize in
/-- Witness for C7 amended: two kilobytes render as "2.00 kilobytes" via the
rule (display value 2, plural). -/
theorem C7_english_plural_rule_witness :
    formatWithUnits ⟨"en", true, "%.2f"⟩ 2048 "%.2f" "" true enUnits =
      sprintfFloat "%.2f" ⟨2048, selectUnitSize 2048⟩ ++ " " ++
        (if 0 < 2048 ∧ 2048 ≠ selectUnitSize 2048 then
          enLongUnits (selectUnitSize 2048) ++ "s"
        else enLongUnits (selectUnitSize 2048)) :=
  C7_english_plural_rule ⟨"en", true, "%.2f"⟩ 2048 "%.2f" rfl

open bytesize in
/-- C8.  In long form the pluralization grammar follows the global
`CurrentLocale`, not the locale parameter of the call: with the global
locale "ru" the label is the Russian plural of the selected magnitude even
when "en" is passed as the parameter, and with the global locale "en" the
English "s"-suffix rule is applied to the passed locale's (Russian) long
name even when "ru" is passed. -/
theorem C8_grammar_follows_global_locale :
    ∀ (cfg : Config) (b : Nat) (format : String),
      (cfg.currentLocale = "ru" →
        formatWithLocale cfg b format "" true "en" =
          sprintfFloat format ⟨b, selectUnitSize b⟩ ++ " " ++
            getRussianPlural ⟨b, selectUnitSize b⟩ (selectUnitSize b)) ∧
      (cfg.currentLocale = "en" →
        formatWithLocale cfg b format "" true "ru" =
          sprintfFloat format ⟨b, selectUnitSize b⟩ ++ " " ++
            (if 0 < b ∧ b ≠ selectUnitSize b then
              ruLongUnits (selectUnitSize b) ++ "s"
            else ruLongUnits (selectUnitSize b))) := by
  intro cfg b format
  have hen : localizedUnits "en" = some enUnits := rfl
  have hru : localizedUnits "ru" = some ruUnits := rfl
  constructor
  · intro h
    unfold formatWithLocale
    rw [hen]
    unfold formatWithUnits formatValue
    simp [h]
  · intro h
    unfold formatWithLocale
    rw [hru]
    unfold formatWithUnits formatValue
    simp [h, Fl.pos, Fl.isOne, ruUnits]

open bytesize in
/-- Witness for C8: at 2048 bytes with the global locale "ru" and parameter
"en" the label is the Russian plural; with the global locale "en" and
parameter "ru" the Russian long name gets the English "s" suffix. -/
theorem C8_grammar_follows_global_locale_witness :
    formatWithLocale ⟨"ru", true, "%.2f"⟩ 2048 "%.2f" "" true "en" =
      sprintfFloat "%.2f" ⟨2048, selectUnitSize 2048⟩ ++ " " ++
        getRussianPlural ⟨2048, selectUnitSize 2048⟩ (selectUnitSize 2048) ∧
    formatWithLocale ⟨"en", true, "%.2f"⟩ 2048 "%.2f" "" true "ru" =
      sprintfFloat "%.2f" ⟨2048, selectUnitSize 2048⟩ ++ " " ++
        (if 0 < 2048 ∧ 2048 ≠ selectUnitSize 2048 then
          ruLongUnits (selectUnitSize 2048) ++ "s"
        else ruLongUnits (selectUnitSize 2048)) :=
  ⟨(C8_grammar_follows_global_locale ⟨"ru", true, "%.2f"⟩ 2048 "%.2f").1 rfl,
    (C8_grammar_follows_global_locale ⟨"en", true, "%.2f"⟩ 2048 "%.2f").2 rfl⟩

open bytesize in
/-- C2.  With the global settings at their defaults (format "%.2f", short
units), formatting each of the seven magnitudes under each supported locale
and parsing the result back under the same locale returns exactly that
magnitude with no error. -/
theorem C2_round_trip :
    ∀ (L : String) (M : Nat), L ∈ (["en", "ru"] : List String) →
      M ∈ magnitudes →
      parseWithLocale (stringWithLocale defaultConfig M L) L = .ok M := by
  intro L M hL hM
  simp only [List.mem_cons, List.not_mem_nil, or_false] at hL
  simp only [magnitudes, List.mem_cons, List.not_mem_nil, or_false] at hM
  rcases hL with rfl | rfl <;>
    rcases hM with rfl | rfl | rfl | rfl | rfl | rfl | rfl <;> rfl

open bytesize in
/-- Witness for C2: the kilobyte magnitude round-trips under the "en"
locale ("1.00KB" parses back to 1024). -/
theorem C2_round_trip_witness :
    parseWithLocale (stringWithLocale defaultConfig 1024 "en") "en" =
      .ok 1024 :=
  C2_round_trip "en" 1024 (by decide) (by decide)

-- Concrete evaluations of the embedding, mirroring the repository's own
-- test vectors (TestRuLocale, TestEnglishLocale, TestParseErrors,
-- TestRussianFormatting, TestRussianShortFormatting).
example : bytesize.goUpper "кб" = "КБ" := by rfl
example : bytesize.goUpper "mB" = "MB" := by rfl
example : bytesize.goTrim " 1 KB ".data = "1 KB".data := by rfl
example : bytesize.parseWithLocale "1024B" "en" = .ok 1024 := by rfl
example : bytesize.parseWithLocale "1 MB" "en" = .ok 1048576 := by rfl
example : bytesize.parseWithLocale "1.5 MB" "en" = .ok 1572864 := by rfl
example : bytesize.parseWithLocale "2 КБ" "ru" = .ok 2048 := by rfl
example : bytesize.parseWithLocale "1 MB" "ru" = .ok 1048576 := by rfl
example : bytesize.parseWithLocale "" "en" =
    .error bytesize.ParseError.malformedInput := by rfl
example : bytesize.parseWithLocale "1024" "en" =
    .error bytesize.ParseError.malformedInput := by rfl
example : bytesize.parseWithLocale "MB" "en" =
    .error (bytesize.ParseError.invalidNumber "") := by rfl
example : bytesize.parseWithLocale "1 КБ" "en" =
    .error (bytesize.ParseError.unknownUnit "КБ") := by rfl
example : bytesize.parseWithLocale "abc MB" "en" =
    .error (bytesize.ParseError.unknownUnit "abc MB") := by rfl
example : bytesize.StringMethod bytesize.defaultConfig 1048576 = "1.00MB" := by rfl
example : bytesize.StringMethod ⟨"ru", false, "%.2f"⟩ 512 = "512.00Б" := by rfl
example : bytesize.StringMethod ⟨"ru", false, "%.2f"⟩ 1572864 = "1.50МБ" := by rfl
example : bytesize.StringMethod ⟨"ru", true, "%.0f"⟩ 1 = "1 байт" := by rfl
example : bytesize.StringMethod ⟨"ru", true, "%.0f"⟩ 2 = "2 байта" := by rfl
example : bytesize.StringMethod ⟨"ru", true, "%.0f"⟩ 25 = "25 байтов" := by rfl
example : bytesize.StringMethod ⟨"ru", true, "%.0f"⟩ (21 * 1024) =
    "21 килобайт" := by rfl
example : bytesize.StringMethod ⟨"en", true, "%.2f"⟩ 1 = "1.00 byte" := by rfl
example : bytesize.StringMethod ⟨"en", true, "%.2f"⟩ 2 = "2.00 bytes" := by rfl
example : bytesize.StringMethod ⟨"en", true, "%.2f"⟩ 0 = "0.00 byte" := by rfl
example : bytesize.formatWithUnits bytesize.defaultConfig 5 "%.2f" "XB" false
    bytesize.enUnits = "Unrecognized unit: XB" := by rfl
example : bytesize.parseWithLocale
    (bytesize.stringWithLocale bytesize.defaultConfig 1152921504606846976 "ru")
    "ru" = .ok 1152921504606846976 := by rfl
